import Mathlib
/-!
Verification of the TerraPi terrarium controller against its specification.

The frontend settings editor (frontend/src/components/SettingsModal.tsx and
terra.tsx) is embedded shallowly: JavaScript objects keyed by strings become
association lists `List (String × α)` with JS property semantics (lookup of
the first matching key, destructuring removal, spread-set that overwrites in
place or appends).  The React state of the settings modal becomes the
structure `ModalState`, and each event handler becomes a pure state
transformer.  Handlers that publish MQTT messages are embedded as functions
returning the list of (topic, payload) pairs they publish.

The backend engine (ScheduleResolver, ThermostatEvaluator,
ConfigMutationService) lives in backend/terrapi, which is not part of the
sources at hand; those components are modelled from the specification text
and marked as such in their doc comments.
-/

/-- JS object lookup: the value stored under key `k`, if any (first match). -/
def lookupKey {α : Type} : List (String × α) → String → Option α
  | [], _ => none
  | p :: rest, k => if p.1 = k then some p.2 else lookupKey rest k

/-- JS destructuring removal `const { [k]: _, ...rest } = m`: drop every pair
whose key is `k`. -/
def eraseKey {α : Type} : List (String × α) → String → List (String × α)
  | [], _ => []
  | p :: rest, k => if p.1 = k then eraseKey rest k else p :: eraseKey rest k

/-- JS spread-set `{...m, [k]: v}`: overwrite the entry for `k` in place when
present, append it otherwise. -/
def jsSet {α : Type} : List (String × α) → String → α → List (String × α)
  | [], k, v => [(k, v)]
  | p :: rest, k, v => if p.1 = k then (k, v) :: rest else p :: jsSet rest k v

/-- `Object.keys`. -/
def keysOf {α : Type} (m : List (String × α)) : List String :=
  m.map Prod.fst

/-- JS `Object.keys(m).forEach` with an in-place value rewrite: map a function
over every stored value, keeping keys and order. -/
def mapVals {α : Type} (f : α → α) : List (String × α) → List (String × α)
  | [] => []
  | p :: rest => (p.1, f p.2) :: mapVals f rest

/-- Thermostat action, frontend field `action: 'cooling' | 'heating'`. -/
inductive ThermoAction where
  | cooling
  | heating
deriving DecidableEq

/-- Frontend `ThermostatConfig` (SettingsModal.tsx).  Temperatures are
embedded as rationals. -/
structure ThermostatConfig where
  enabled : Bool
  target_temperature : ℚ
  hysteresis : ℚ
  sensor : String
  action : ThermoAction
deriving DecidableEq

/-- Frontend `ControlValue = boolean | ThermostatConfig`. -/
inductive ControlValue where
  | simple (b : Bool)
  | thermostat (cfg : ThermostatConfig)
deriving DecidableEq

/-- Frontend `Mode`: an object mapping control names to control values. -/
abbrev Mode := List (String × ControlValue)

/-- Frontend `Period` (fields `start`, `end`, `mode`; the time fields are the
HH:MM strings of the time inputs). -/
structure Period where
  startT : String
  endT : String
  mode : String
deriving DecidableEq

/-- The `planning` section of the configuration. -/
structure Planning where
  active : Bool
  default_mode : String
  periods : List (String × Period)
deriving DecidableEq

/-- The two tabs of the settings modal. -/
inductive Tab where
  | modes
  | planning
deriving DecidableEq

/-- The mutable React state of `SettingsModal` (fields `activeTab`,
`editedModes`, `editedPlanning`, `hasChanges`). -/
structure ModalState where
  activeTab : Tab
  editedModes : List (String × Mode)
  editedPlanning : Planning
  hasChanges : Bool
deriving DecidableEq

/-- JS `String.prototype.trim()`: strip whitespace from both ends. -/
def jsTrim (s : String) : String :=
  String.mk (((s.data.dropWhile Char.isWhitespace).reverse.dropWhile Char.isWhitespace).reverse)

/-- `SettingsModal.handleModeNameChange(oldName, newName)`.  The JS
destructures `oldName` out of `editedModes`, rewrites every planning period
whose `mode` equals `oldName` to `newName`, rewrites
`editedPlanning.default_mode` likewise, and re-inserts the mode data under
`newName`, all in one `setState`.  When `oldName` is absent the JS would
store the key `newName` with value undefined; an undefined entry is not
representable here, so that branch keeps the map unchanged (no claim touches
it: all claims rename an existing mode). -/
def handleModeNameChange (s : ModalState) (oldName newName : String) : ModalState :=
  if newName = oldName then s
  else if jsTrim newName = "" then s
  else
    let restModes := eraseKey s.editedModes oldName
    let updatedPeriods :=
      mapVals (fun per => if per.mode = oldName then { per with mode := newName } else per)
        s.editedPlanning.periods
    let updatedDefaultMode :=
      if s.editedPlanning.default_mode = oldName then newName
      else s.editedPlanning.default_mode
    let newModes :=
      match lookupKey s.editedModes oldName with
      | some modeData => jsSet restModes newName modeData
      | none => restModes
    { s with
      editedModes := newModes,
      editedPlanning :=
        { s.editedPlanning with
          default_mode := updatedDefaultMode,
          periods := updatedPeriods },
      hasChanges := true }

/-- `SettingsModal.handleDeleteMode(modeName)`: refused outright when at most
one mode remains; otherwise removes the mode, rewrites periods that used it
to the empty (None) mode, and clears `default_mode` if it was the deleted
mode, in one `setState`. -/
def handleDeleteMode (s : ModalState) (modeName : String) : ModalState :=
  if (keysOf s.editedModes).length ≤ 1 then s
  else
    let restModes := eraseKey s.editedModes modeName
    let updatedPeriods :=
      mapVals (fun per => if per.mode = modeName then { per with mode := "" } else per)
        s.editedPlanning.periods
    let updatedDefaultMode :=
      if s.editedPlanning.default_mode = modeName then ""
      else s.editedPlanning.default_mode
    { s with
      editedModes := restModes,
      editedPlanning :=
        { s.editedPlanning with
          default_mode := updatedDefaultMode,
          periods := updatedPeriods },
      hasChanges := true }

/-- The while loop of `handleAddMode` hunting for an unused name among
new_mode, new_mode_1, new_mode_2, ...  The JS loop is unbounded; among the
first `length + 1` candidates one is always free, and the loop stops at the
first free candidate, so the bounded search below returns the same name. -/
def freshModeName (modes : List (String × Mode)) : String :=
  let candidates :=
    "new_mode" :: (List.range (keysOf modes).length).map
      (fun i => "new_mode_" ++ toString (i + 1))
  (candidates.find? (fun c => (lookupKey modes c).isNone)).getD "new_mode"

/-- The control assignments of the mode created by `handleAddMode`: thermostat
controls of the first existing mode are copied with `enabled := false`, every
other control starts as the simple value `false`. -/
def newModeData (controlNames : List String) (modes : List (String × Mode)) : Mode :=
  let referenceMode : Option Mode :=
    match keysOf modes with
    | [] => none
    | k :: _ => lookupKey modes k
  controlNames.map (fun control =>
    match referenceMode with
    | some rm =>
      match lookupKey rm control with
      | some (ControlValue.thermostat tc) =>
        (control, ControlValue.thermostat { tc with enabled := false })
      | _ => (control, ControlValue.simple false)
    | none => (control, ControlValue.simple false))

/-- `SettingsModal.handleAddMode()`.  `controlNames` is
`Object.keys(this.props.config.controls)`. -/
def handleAddMode (s : ModalState) (controlNames : List String) : ModalState :=
  let name := freshModeName s.editedModes
  { s with
    editedModes := jsSet s.editedModes name (newModeData controlNames s.editedModes),
    hasChanges := true }

/-- The payload of one `onSave(section, data)` call made by `handleSave`. -/
inductive SaveData where
  | modes (m : List (String × Mode))
  | planning (p : Planning)
deriving DecidableEq

/-- The `onSave` calls `SettingsModal.handleSave` makes: exactly one call,
carrying the edited data of the currently active tab only. -/
def handleSaveCalls (s : ModalState) : List (String × SaveData) :=
  if s.activeTab = Tab.modes then [("modes", SaveData.modes s.editedModes)]
  else [("planning", SaveData.planning s.editedPlanning)]

/-- The state update done by `handleSave` after calling `onSave`. -/
def handleSaveState (s : ModalState) : ModalState :=
  { s with hasChanges := false }

/-- An MQTT payload published by the dashboard: either a plain string or the
JSON body `{section, data}` of a `config/update` (the JSON encoding itself is
transport glue and is kept symbolic). -/
inductive Payload where
  | str (s : String)
  | update (sec : String) (data : SaveData)
deriving DecidableEq

/-- The UI events of `Terra` (terra.tsx) that publish MQTT messages. -/
inductive TerraEvent where
  | connected
  | planningActiveChange (checked : Bool)
  | modeChange (mode : String)
  | settingsOpen
  | settingsSave (sec : String) (data : SaveData)
deriving DecidableEq

/-- The list of (topic, payload) pairs each `Terra` handler publishes, read
off terra.tsx: `onConnect`, `onPlanningActiveChange`, `onModeChange`,
`onSettingsOpen`, `onSettingsSave`. -/
def terraPublishes : TerraEvent → List (String × Payload)
  | TerraEvent.connected => [("config/get", Payload.str "1")]
  | TerraEvent.planningActiveChange checked =>
    [("planning/active", Payload.str (if checked then "1" else "0")),
     ("config/get", Payload.str "1")]
  | TerraEvent.modeChange mode => [("mode/set", Payload.str mode)]
  | TerraEvent.settingsOpen => [("config/get", Payload.str "1")]
  | TerraEvent.settingsSave sec data => [("config/update", Payload.update sec data)]

/-- The messages one click of Save Changes causes: `handleSave` hands each of
its `onSave` calls to `Terra.onSettingsSave`, which publishes one
`config/update`. -/
def saveEmits (s : ModalState) : List (String × Payload) :=
  (handleSaveCalls s).flatMap (fun c => terraPublishes (TerraEvent.settingsSave c.1 c.2))

/-- A concrete mode used by the example states below. -/
def sampleMode : Mode := [("light", ControlValue.simple true)]

/-- A concrete modal state with two modes and two periods, the default mode
and the morning period referencing day. -/
def sampleState : ModalState :=
  { activeTab := Tab.modes,
    editedModes := [("day", sampleMode), ("night", [])],
    editedPlanning :=
      { active := true, default_mode := "day",
        periods :=
          [("morning", { startT := "08:00", endT := "12:00", mode := "day" }),
           ("evening", { startT := "20:00", endT := "23:00", mode := "night" })] },
    hasChanges := false }

/-- A concrete modal state holding exactly one mode. -/
def oneModeState : ModalState :=
  { activeTab := Tab.modes,
    editedModes := [("day", sampleMode)],
    editedPlanning := { active := false, default_mode := "day", periods := [] },
    hasChanges := false }

/-- A concrete modal state whose second mode is named a single space. -/
def collisionState : ModalState :=
  { activeTab := Tab.modes,
    editedModes := [("day", sampleMode), (" ", [])],
    editedPlanning := { active := false, default_mode := "", periods := [] },
    hasChanges := false }

/-- Modelled from the spec: the full configuration owned by ConfigStore
(backend/terrapi/config_manager.py is not among the sources).  The sensor and
control registries carry the names that validation checks references
against. -/
structure FullConfig where
  modes : List (String × Mode)
  planning : Planning
  sensors : List String
  controls : List String
  log_interval : Nat
deriving DecidableEq

/-- Modelled from the spec: one control assignment is valid when its control
exists in the control registry and, for a thermostat, its sensor exists in
the sensor registry. -/
def controlAssignmentOk (controls sensors : List String)
    (entry : String × ControlValue) : Bool :=
  controls.contains entry.1 &&
    match entry.2 with
    | ControlValue.simple _ => true
    | ControlValue.thermostat tc => sensors.contains tc.sensor

/-- Modelled from the spec: a modes payload must be non-empty and every
assignment must reference existing controls and sensors. -/
def validateModes (cfg : FullConfig) (m : List (String × Mode)) : Bool :=
  !m.isEmpty && m.all (fun md => md.2.all (controlAssignmentOk cfg.controls cfg.sensors))

/-- Modelled from the spec: a mode reference is valid when it is none (the
empty string) or names an existing mode. -/
def modeRefOk (modes : List (String × Mode)) (name : String) : Bool :=
  name == "" || (lookupKey modes name).isSome

/-- Modelled from the spec: a planning payload's default_mode and every
period's mode, when set, must reference an existing mode. -/
def validatePlanning (cfg : FullConfig) (p : Planning) : Bool :=
  modeRefOk cfg.modes p.default_mode &&
    p.periods.all (fun pp => modeRefOk cfg.modes pp.2.mode)

/-- Modelled from the spec: validation of a config/update payload for either
section against the currently committed configuration. -/
def validateSection (cfg : FullConfig) : SaveData → Bool
  | SaveData.modes m => validateModes cfg m
  | SaveData.planning p => validatePlanning cfg p

/-- Modelled from the spec: replacing the modes section rewrites planning
references that dangle under the new modes map to none, inside the same
transaction. -/
def rewriteDangling (newModes : List (String × Mode)) (p : Planning) : Planning :=
  { p with
    default_mode := if modeRefOk newModes p.default_mode then p.default_mode else "",
    periods :=
      mapVals (fun per => if modeRefOk newModes per.mode then per else { per with mode := "" })
        p.periods }

/-- The outcome of a config/update call: the configuration stored afterwards
and the config/status payload fields. -/
structure MutationOutcome where
  store : FullConfig
  success : Bool
  message : String
deriving DecidableEq

/-- Modelled from the spec: ConfigMutationService.apply.  Validate the
payload against the committed configuration; on failure leave the store
untouched and report failure; on success replace the whole targeted section
atomically (rewriting dangling planning references when modes are replaced)
and report success only if persistence succeeded, rolling the replacement
back otherwise.  `persistOk` is the outcome of the persistence port. -/
def applyMutation (cfg : FullConfig) (d : SaveData) (persistOk : Bool) : MutationOutcome :=
  if validateSection cfg d then
    let newCfg :=
      match d with
      | SaveData.modes m => { cfg with modes := m, planning := rewriteDangling m cfg.planning }
      | SaveData.planning p => { cfg with planning := p }
    if persistOk then { store := newCfg, success := true, message := "configuration updated" }
    else { store := cfg, success := false, message := "persistence failed" }
  else { store := cfg, success := false, message := "validation failed" }

/-- A concrete committed configuration with one mode. -/
def sampleConfig : FullConfig :=
  { modes := [("day", sampleMode)],
    planning := { active := true, default_mode := "day", periods := [] },
    sensors := ["dht22"],
    controls := ["light", "cooling_system"],
    log_interval := 60 }

/-- A planning payload whose default_mode names a nonexistent mode. -/
def badPlanning : Planning :=
  { active := true, default_mode := "ghost", periods := [] }

/-- Modelled from the spec: the ThermostatEvaluator hysteresis function
(backend/terrapi is not among the sources).  The turn-ON rule is listed
first in the spec and is checked first; with hysteresis = 0 and the reading
exactly on the collapsed threshold the evaluator is therefore decisive and
turns ON. -/
def evaluateThermostat (target hysteresis : ℚ) (action : ThermoAction)
    (reading : ℚ) (previousOutput : Bool) : Bool :=
  match action with
  | ThermoAction.cooling =>
    if target + hysteresis ≤ reading then true
    else if reading ≤ target - hysteresis then false
    else previousOutput
  | ThermoAction.heating =>
    if reading ≤ target - hysteresis then true
    else if target + hysteresis ≤ reading then false
    else previousOutput

/-- Modelled from the spec: the ScheduleResolver period match on times of
day in minutes since midnight (backend/terrapi is not among the sources).
A period with end < start wraps past midnight, start = end covers the full
day, otherwise the half-open interval from start to end applies. -/
def periodMatches (startT endT t : Nat) : Bool :=
  if startT = endT then true
  else if endT < startT then decide (startT ≤ t) || decide (t < endT)
  else decide (startT ≤ t) && decide (t < endT)

theorem lookupKey_eraseKey_self {α : Type} (m : List (String × α)) (k : String) :
    lookupKey (eraseKey m k) k = none := by
  induction m with
  | nil => rfl
  | cons p rest ih =>
    by_cases h : p.1 = k
    · simpa [eraseKey, h] using ih
    · simpa [eraseKey, lookupKey, h] using ih

theorem lookupKey_eraseKey_ne {α : Type} (m : List (String × α)) (k k' : String)
    (h : k' ≠ k) : lookupKey (eraseKey m k) k' = lookupKey m k' := by
  induction m with
  | nil => rfl
  | cons p rest ih =>
    simp only [eraseKey]
    by_cases hp : p.1 = k
    · rw [if_pos hp, ih]
      have hpk : p.1 ≠ k' := fun hc => h (by rw [← hc, hp])
      simp only [lookupKey, if_neg hpk]
    · rw [if_neg hp]
      simp only [lookupKey]
      by_cases hq : p.1 = k'
      · rw [if_pos hq, if_pos hq]
      · rw [if_neg hq, if_neg hq, ih]

theorem eraseKey_of_lookup_none {α : Type} (m : List (String × α)) (k : String)
    (h : lookupKey m k = none) : eraseKey m k = m := by
  induction m with
  | nil => rfl
  | cons p rest ih =>
    simp only [lookupKey] at h
    by_cases hp : p.1 = k
    · rw [if_pos hp] at h
      exact absurd h (by simp)
    · rw [if_neg hp] at h
      simp only [eraseKey, if_neg hp]
      rw [ih h]

theorem lookupKey_jsSet_self {α : Type} (m : List (String × α)) (k : String) (v : α) :
    lookupKey (jsSet m k v) k = some v := by
  induction m with
  | nil => simp [jsSet, lookupKey]
  | cons p rest ih =>
    by_cases hp : p.1 = k
    · simp [jsSet, hp, lookupKey]
    · simpa [jsSet, hp, lookupKey] using ih

theorem lookupKey_jsSet_ne {α : Type} (m : List (String × α)) (k k' : String) (v : α)
    (h : k' ≠ k) : lookupKey (jsSet m k v) k' = lookupKey m k' := by
  have hkk : k ≠ k' := fun hc => h hc.symm
  induction m with
  | nil => simp only [jsSet, lookupKey, if_neg hkk]
  | cons p rest ih =>
    simp only [jsSet]
    by_cases hp : p.1 = k
    · rw [if_pos hp]
      have hq : p.1 ≠ k' := fun hc => h (by rw [← hc, hp])
      simp only [lookupKey, if_neg hkk, if_neg hq]
    · rw [if_neg hp]
      simp only [lookupKey]
      by_cases hq : p.1 = k'
      · rw [if_pos hq, if_pos hq]
      · rw [if_neg hq, if_neg hq, ih]

theorem jsSet_ne_nil {α : Type} (m : List (String × α)) (k : String) (v : α) :
    jsSet m k v ≠ [] := by
  cases m with
  | nil => simp [jsSet]
  | cons p rest =>
    by_cases hp : p.1 = k <;> simp [jsSet, hp]

theorem length_jsSet_of_mem {α : Type} (m : List (String × α)) (k : String) (v w : α)
    (h : lookupKey m k = some w) : (jsSet m k v).length = m.length := by
  induction m with
  | nil => simp [lookupKey] at h
  | cons p rest ih =>
    simp only [lookupKey] at h
    simp only [jsSet]
    by_cases hp : p.1 = k
    · rw [if_pos hp, List.length_cons, List.length_cons]
    · rw [if_neg hp] at h
      rw [if_neg hp, List.length_cons, List.length_cons, ih h]

theorem lookupKey_none_of_not_mem_keys {α : Type} (m : List (String × α)) (k : String)
    (h : k ∉ keysOf m) : lookupKey m k = none := by
  induction m with
  | nil => rfl
  | cons p rest ih =>
    simp only [keysOf, List.map_cons, List.mem_cons, not_or] at h
    have h1 : p.1 ≠ k := fun hc => h.1 hc.symm
    simp only [lookupKey, if_neg h1]
    exact ih h.2

theorem length_eraseKey_of_lookup {α : Type} (m : List (String × α)) (k : String) (w : α)
    (hnd : (keysOf m).Nodup) (h : lookupKey m k = some w) :
    (eraseKey m k).length + 1 = m.length := by
  induction m with
  | nil => exact absurd h (by simp [lookupKey])
  | cons p rest ih =>
    simp only [keysOf, List.map_cons, List.nodup_cons] at hnd
    simp only [lookupKey] at h
    simp only [eraseKey]
    by_cases hp : p.1 = k
    · have hk : k ∉ keysOf rest := fun hc => hnd.1 (by rw [hp]; exact hc)
      rw [if_pos hp, eraseKey_of_lookup_none rest k (lookupKey_none_of_not_mem_keys rest k hk)]
      simp
    · rw [if_neg hp] at h
      rw [if_neg hp, List.length_cons, List.length_cons, ih hnd.2 h]

theorem lookupKey_mapVals {α : Type} (f : α → α) (m : List (String × α)) (k : String) :
    lookupKey (mapVals f m) k = (lookupKey m k).map f := by
  induction m with
  | nil => rfl
  | cons p rest ih =>
    by_cases hp : p.1 = k
    · simp [mapVals, lookupKey, hp]
    · simpa [mapVals, lookupKey, hp] using ih

theorem keysOf_mapVals {α : Type} (f : α → α) (m : List (String × α)) :
    keysOf (mapVals f m) = keysOf m := by
  induction m with
  | nil => rfl
  | cons p rest ih => simpa [mapVals, keysOf] using ih

theorem keysOf_ne_nil_iff {α : Type} (m : List (String × α)) :
    keysOf m ≠ [] ↔ m ≠ [] := by
  cases m <;> simp [keysOf]

/-- On an accepted rename of an existing mode, `handleModeNameChange` is the
simultaneous update of the modes map, the periods and the default mode. -/
theorem handleModeNameChange_eq (s : ModalState) (oldName newName : String) (d : Mode)
    (hd : lookupKey s.editedModes oldName = some d)
    (ht : jsTrim newName ≠ "") (hne : newName ≠ oldName) :
    handleModeNameChange s oldName newName =
      { s with
        editedModes := jsSet (eraseKey s.editedModes oldName) newName d,
        editedPlanning :=
          { s.editedPlanning with
            default_mode :=
              if s.editedPlanning.default_mode = oldName then newName
              else s.editedPlanning.default_mode,
            periods :=
              mapVals (fun per => if per.mode = oldName then { per with mode := newName } else per)
                s.editedPlanning.periods },
        hasChanges := true } := by
  simp only [handleModeNameChange, if_neg hne, if_neg ht, hd]

/-- C1: for every configuration state, every existing mode `oldName` and every
new name that is non-empty after trimming and different from `oldName`,
`handleModeNameChange` moves the mode data to the new name, rewrites every
period that referenced the old name and `default_mode` if it referenced it,
in the single produced state; afterwards the old name is neither a key of the
modes map nor referenced by any period or by `default_mode`. -/
theorem renameMode_atomic (s : ModalState) (oldName newName : String) (d : Mode)
    (hd : lookupKey s.editedModes oldName = some d)
    (ht : jsTrim newName ≠ "") (hne : newName ≠ oldName) :
    lookupKey (handleModeNameChange s oldName newName).editedModes newName = some d
    ∧ lookupKey (handleModeNameChange s oldName newName).editedModes oldName = none
    ∧ (∀ pn per, lookupKey s.editedPlanning.periods pn = some per →
        lookupKey (handleModeNameChange s oldName newName).editedPlanning.periods pn =
          some (if per.mode = oldName then { per with mode := newName } else per))
    ∧ (handleModeNameChange s oldName newName).editedPlanning.default_mode =
        (if s.editedPlanning.default_mode = oldName then newName
         else s.editedPlanning.default_mode)
    ∧ (∀ pn per,
        lookupKey (handleModeNameChange s oldName newName).editedPlanning.periods pn = some per →
        per.mode ≠ oldName)
    ∧ (handleModeNameChange s oldName newName).editedPlanning.default_mode ≠ oldName := by
  rw [handleModeNameChange_eq s oldName newName d hd ht hne]
  refine ⟨lookupKey_jsSet_self _ _ _, ?_, ?_, rfl, ?_, ?_⟩
  · rw [lookupKey_jsSet_ne _ _ _ _ (Ne.symm hne)]
    exact lookupKey_eraseKey_self _ _
  · intro pn per hper
    rw [lookupKey_mapVals, hper]
    rfl
  · intro pn per hper
    rw [lookupKey_mapVals] at hper
    cases h0 : lookupKey s.editedPlanning.periods pn with
    | none => rw [h0] at hper; exact absurd hper (by simp)
    | some q =>
      rw [h0] at hper
      have hq' : (if q.mode = oldName then { q with mode := newName } else q) = per := by
        simpa using hper
      subst hq'
      by_cases hq : q.mode = oldName
      · rw [if_pos hq]
        exact hne
      · rw [if_neg hq]
        exact hq
  · by_cases h0 : s.editedPlanning.default_mode = oldName
    · rw [if_pos h0]
      exact hne
    · rw [if_neg h0]
      exact h0

theorem renameMode_atomic_witness :
    lookupKey (handleModeNameChange sampleState "day" "sunny").editedModes "sunny" = some sampleMode
    ∧ lookupKey (handleModeNameChange sampleState "day" "sunny").editedModes "day" = none
    ∧ (handleModeNameChange sampleState "day" "sunny").editedPlanning.default_mode = "sunny"
    ∧ lookupKey (handleModeNameChange sampleState "day" "sunny").editedPlanning.periods "morning" =
        some { startT := "08:00", endT := "12:00", mode := "sunny" } := by
  have h := renameMode_atomic sampleState "day" "sunny" sampleMode (by decide) (by decide) (by decide)
  refine ⟨h.1, h.2.1, h.2.2.2.1.trans (by decide), ?_⟩
  have hm := h.2.2.1 "morning" { startT := "08:00", endT := "12:00", mode := "day" } (by decide)
  exact hm.trans (by decide)

/-- C2: the modes registry never becomes empty.  Deleting when exactly one
mode exists is a complete no-op (the guard returns before any state change),
and neither adding, deleting with more than one mode present, nor renaming
ever yields a state with zero modes.  The Nodup hypothesis is the key
uniqueness every JS object enjoys. -/
theorem modesRegistry_nonempty (s : ModalState) (controlNames : List String)
    (m oldName newName : String)
    (hne : keysOf s.editedModes ≠ [])
    (hnd : (keysOf s.editedModes).Nodup) :
    ((keysOf s.editedModes).length = 1 → handleDeleteMode s m = s)
    ∧ keysOf (handleAddMode s controlNames).editedModes ≠ []
    ∧ keysOf (handleDeleteMode s m).editedModes ≠ []
    ∧ keysOf (handleModeNameChange s oldName newName).editedModes ≠ [] := by
  refine ⟨?_, ?_, ?_, ?_⟩
  · intro h1
    simp only [handleDeleteMode, if_pos (by omega : (keysOf s.editedModes).length ≤ 1)]
  · simp only [handleAddMode]
    rw [keysOf_ne_nil_iff]
    exact jsSet_ne_nil _ _ _
  · by_cases hlen : (keysOf s.editedModes).length ≤ 1
    · simp only [handleDeleteMode, if_pos hlen]
      exact hne
    · simp only [handleDeleteMode, if_neg hlen]
      rw [keysOf_ne_nil_iff]
      cases hm : lookupKey s.editedModes m with
      | none =>
        rw [eraseKey_of_lookup_none s.editedModes m hm]
        exact (keysOf_ne_nil_iff s.editedModes).mp hne
      | some w =>
        have hl := length_eraseKey_of_lookup s.editedModes m w hnd hm
        intro hcon
        rw [hcon] at hl
        simp only [keysOf, List.length_map] at hlen
        simp at hl
        omega
  · by_cases h1 : newName = oldName
    · simp only [handleModeNameChange, if_pos h1]
      exact hne
    · by_cases h2 : jsTrim newName = ""
      · simp only [handleModeNameChange, if_neg h1, if_pos h2]
        exact hne
      · simp only [handleModeNameChange, if_neg h1, if_neg h2]
        cases hm : lookupKey s.editedModes oldName with
        | none =>
          simp only [hm]
          rw [eraseKey_of_lookup_none s.editedModes oldName hm]
          exact hne
        | some w =>
          simp only [hm]
          rw [keysOf_ne_nil_iff]
          exact jsSet_ne_nil _ _ _

theorem modesRegistry_nonempty_witness :
    handleDeleteMode oneModeState "day" = oneModeState
    ∧ keysOf (handleAddMode oneModeState ["light"]).editedModes ≠ [] := by
  have h := modesRegistry_nonempty oneModeState ["light"] "day" "day" "sunny"
    (by decide) (by decide)
  exact ⟨h.1 (by decide), h.2.1⟩

/-- On a delete with more than one mode present, `handleDeleteMode` is the
simultaneous update of the modes map, the periods and the default mode. -/
theorem handleDeleteMode_eq (s : ModalState) (m : String)
    (hlen : 1 < (keysOf s.editedModes).length) :
    handleDeleteMode s m =
      { s with
        editedModes := eraseKey s.editedModes m,
        editedPlanning :=
          { s.editedPlanning with
            default_mode :=
              if s.editedPlanning.default_mode = m then ""
              else s.editedPlanning.default_mode,
            periods :=
              mapVals (fun per => if per.mode = m then { per with mode := "" } else per)
                s.editedPlanning.periods },
        hasChanges := true } := by
  simp only [handleDeleteMode, if_neg (by omega : ¬ (keysOf s.editedModes).length ≤ 1)]

/-- C3: deleting a mode while more than one exists removes it from the modes
map, rewrites every period that referenced it to the empty (None) mode while
keeping period keys and start/end times, clears `default_mode` if it
referenced it, and leaves every other mode unchanged, all in the single
produced state. -/
theorem deleteMode_rewrites (s : ModalState) (m : String)
    (hlen : 1 < (keysOf s.editedModes).length) :
    lookupKey (handleDeleteMode s m).editedModes m = none
    ∧ (∀ k, k ≠ m →
        lookupKey (handleDeleteMode s m).editedModes k = lookupKey s.editedModes k)
    ∧ (∀ pn per, lookupKey s.editedPlanning.periods pn = some per →
        lookupKey (handleDeleteMode s m).editedPlanning.periods pn =
          some (if per.mode = m then { per with mode := "" } else per))
    ∧ keysOf (handleDeleteMode s m).editedPlanning.periods = keysOf s.editedPlanning.periods
    ∧ (handleDeleteMode s m).editedPlanning.default_mode =
        (if s.editedPlanning.default_mode = m then ""
         else s.editedPlanning.default_mode)
    ∧ (handleDeleteMode s m).editedPlanning.active = s.editedPlanning.active := by
  rw [handleDeleteMode_eq s m hlen]
  refine ⟨lookupKey_eraseKey_self _ _, ?_, ?_, keysOf_mapVals _ _, rfl, rfl⟩
  · intro k hk
    exact lookupKey_eraseKey_ne _ _ _ hk
  · intro pn per hper
    rw [lookupKey_mapVals, hper]
    rfl

/-- Witness for C3 on the concrete two-mode state: deleting night clears the
evening period reference, keeps its times, keeps day, and leaves the default
mode (day) alone. -/
theorem deleteMode_rewrites_witness :
    lookupKey (handleDeleteMode sampleState "night").editedModes "night" = none
    ∧ lookupKey (handleDeleteMode sampleState "night").editedModes "day" = some sampleMode
    ∧ lookupKey (handleDeleteMode sampleState "night").editedPlanning.periods "evening" =
        some { startT := "20:00", endT := "23:00", mode := "" }
    ∧ (handleDeleteMode sampleState "night").editedPlanning.default_mode = "day" := by
  have h := deleteMode_rewrites sampleState "night" (by decide)
  refine ⟨h.1, ?_, ?_, h.2.2.2.2.1.trans (by decide)⟩
  · exact (h.2.1 "day" (by decide)).trans (by decide)
  · have he := h.2.2.1 "evening" { startT := "20:00", endT := "23:00", mode := "night" } (by decide)
    exact he.trans (by decide)

/-- C10 (amended): renaming mode A to the name of another existing mode B
whose name is non-empty after trimming is not rejected: B's entry is
overwritten with A's control assignments, A is removed, and the modes map
shrinks by one (Nodup is the key uniqueness of JS objects). -/
theorem renameMode_collision (s : ModalState) (a b : String) (da db : Mode)
    (hab : a ≠ b)
    (ha : lookupKey s.editedModes a = some da)
    (hb : lookupKey s.editedModes b = some db)
    (htrim : jsTrim b ≠ "")
    (hnd : (keysOf s.editedModes).Nodup) :
    lookupKey (handleModeNameChange s a b).editedModes b = some da
    ∧ lookupKey (handleModeNameChange s a b).editedModes a = none
    ∧ (keysOf (handleModeNameChange s a b).editedModes).length + 1 =
        (keysOf s.editedModes).length := by
  have hne : b ≠ a := fun hc => hab hc.symm
  rw [handleModeNameChange_eq s a b da ha htrim hne]
  refine ⟨lookupKey_jsSet_self _ _ _, ?_, ?_⟩
  · rw [lookupKey_jsSet_ne _ _ _ _ hab]
    exact lookupKey_eraseKey_self _ _
  · have hberase : lookupKey (eraseKey s.editedModes a) b = some db := by
      rw [lookupKey_eraseKey_ne _ _ _ hne]
      exact hb
    have h1 := length_jsSet_of_mem (eraseKey s.editedModes a) b da db hberase
    have h2 := length_eraseKey_of_lookup s.editedModes a da hnd ha
    simp only [keysOf, List.length_map]
    simp only [keysOf, List.length_map] at h1 h2 ⊢
    omega

theorem renameMode_collision_witness :
    lookupKey (handleModeNameChange sampleState "day" "night").editedModes "night" =
      some sampleMode
    ∧ lookupKey (handleModeNameChange sampleState "day" "night").editedModes "day" = none
    ∧ (keysOf (handleModeNameChange sampleState "day" "night").editedModes).length + 1 = 2 := by
  have h := renameMode_collision sampleState "day" "night" sampleMode []
    (by decide) (by decide) (by decide) (by decide) (by decide)
  exact ⟨h.1, h.2.1, h.2.2.trans (by decide)⟩

/-- Counterexample to C10 as stated: the mode named a single space is an
existing mode distinct from day, yet renaming day to it is rejected by the
trim guard of handleModeNameChange, so the state is unchanged: day is still
a key and the number of modes does not decrease. -/
theorem renameMode_collision_cex :
    handleModeNameChange collisionState "day" " " = collisionState
    ∧ lookupKey (handleModeNameChange collisionState "day" " ").editedModes "day" =
        some sampleMode
    ∧ (keysOf (handleModeNameChange collisionState "day" " ").editedModes).length = 2 := by
  decide

/-- C8: the planning checkbox handler publishes exactly "1" (checked) or "0"
(unchecked) on planning/active, and no Terra handler ever publishes any
other payload on that topic. -/
theorem planningActive_payload (checked : Bool) (e : TerraEvent) (t : String) (p : Payload) :
    (terraPublishes (TerraEvent.planningActiveChange checked)).filter
        (fun msg => msg.1 == "planning/active") =
      [("planning/active", Payload.str (if checked then "1" else "0"))]
    ∧ ((t, p) ∈ terraPublishes e → t = "planning/active" →
        p = Payload.str "1" ∨ p = Payload.str "0") := by
  constructor
  · cases checked <;> rfl
  · intro hmem ht
    subst ht
    cases e with
    | connected => simp [terraPublishes] at hmem
    | planningActiveChange c =>
      cases c with
      | false =>
        simp [terraPublishes] at hmem
        right
        simp [hmem]
      | true =>
        simp [terraPublishes] at hmem
        left
        simp [hmem]
    | modeChange mode => simp [terraPublishes] at hmem
    | settingsOpen => simp [terraPublishes] at hmem
    | settingsSave sec data => simp [terraPublishes] at hmem

theorem planningActive_payload_witness :
    (terraPublishes (TerraEvent.planningActiveChange false)).filter
        (fun msg => msg.1 == "planning/active") =
      [("planning/active", Payload.str "0")]
    ∧ (Payload.str "0" = Payload.str "1" ∨ Payload.str "0" = Payload.str "0") := by
  have h := planningActive_payload false (TerraEvent.planningActiveChange false)
    "planning/active" (Payload.str "0")
  exact ⟨h.1, h.2 (by decide) rfl⟩

/-- C9: one Save click emits exactly one config/update message, whose section
and data are those of the currently active tab only; the message does not
depend on the edits held for the other section (in particular not on the
period and default_mode rewrites a rename or delete performed while the
Modes tab is active). -/
theorem saveEmits_activeTab (s : ModalState) :
    (saveEmits s).length = 1
    ∧ (∀ msg, msg ∈ saveEmits s → msg.1 = "config/update")
    ∧ (s.activeTab = Tab.modes →
        handleSaveCalls s = [("modes", SaveData.modes s.editedModes)]
        ∧ ∀ pl, handleSaveCalls { s with editedPlanning := pl } = handleSaveCalls s)
    ∧ (s.activeTab = Tab.planning →
        handleSaveCalls s = [("planning", SaveData.planning s.editedPlanning)]
        ∧ ∀ ms, handleSaveCalls { s with editedModes := ms } = handleSaveCalls s) := by
  refine ⟨?_, ?_, ?_, ?_⟩
  · by_cases h : s.activeTab = Tab.modes <;>
      simp [saveEmits, handleSaveCalls, terraPublishes, h]
  · intro msg hmem
    by_cases h : s.activeTab = Tab.modes <;>
      simp [saveEmits, handleSaveCalls, terraPublishes, h] at hmem <;>
      simp [hmem]
  · intro h
    exact ⟨by simp [handleSaveCalls, h], fun pl => by simp [handleSaveCalls, h]⟩
  · intro h
    exact ⟨by simp [handleSaveCalls, h], fun ms => by simp [handleSaveCalls, h]⟩

theorem saveEmits_activeTab_witness :
    (saveEmits sampleState).length = 1
    ∧ handleSaveCalls sampleState = [("modes", SaveData.modes sampleState.editedModes)] := by
  have h := saveEmits_activeTab sampleState
  exact ⟨h.1, (h.2.2.1 (by decide)).1⟩

/-- C4: a config/update whose payload fails validation leaves the stored
configuration completely unchanged and reports success = false; in
particular a planning payload whose default_mode names a nonexistent mode is
rejected with the stored planning section identical before and after. -/
theorem mutation_reject_atomic (cfg : FullConfig) (d : SaveData) (p : Planning)
    (persistOk : Bool) :
    (validateSection cfg d = false →
      (applyMutation cfg d persistOk).store = cfg
      ∧ (applyMutation cfg d persistOk).success = false)
    ∧ (p.default_mode ≠ "" → lookupKey cfg.modes p.default_mode = none →
        validateSection cfg (SaveData.planning p) = false
        ∧ (applyMutation cfg (SaveData.planning p) persistOk).store.planning = cfg.planning
        ∧ (applyMutation cfg (SaveData.planning p) persistOk).success = false) := by
  have hrej : ∀ d2, validateSection cfg d2 = false →
      (applyMutation cfg d2 persistOk).store = cfg
      ∧ (applyMutation cfg d2 persistOk).success = false := by
    intro d2 hv
    simp [applyMutation, hv]
  refine ⟨hrej d, ?_⟩
  intro hdm hlk
  have hv : validateSection cfg (SaveData.planning p) = false := by
    simp [validateSection, validatePlanning, modeRefOk, hdm, hlk]
  have h := hrej (SaveData.planning p) hv
  exact ⟨hv, by rw [h.1], h.2⟩

theorem mutation_reject_atomic_witness :
    validateSection sampleConfig (SaveData.planning badPlanning) = false
    ∧ (applyMutation sampleConfig (SaveData.planning badPlanning) true).store.planning =
        sampleConfig.planning
    ∧ (applyMutation sampleConfig (SaveData.planning badPlanning) true).success = false := by
  have h := mutation_reject_atomic sampleConfig (SaveData.planning badPlanning) badPlanning true
  exact h.2 (by decide) (by decide)

/-- C5: the cooling thermostat turns ON at reading ≥ target + hysteresis,
OFF at reading ≤ target - hysteresis (below the ON threshold), and holds the
previous output inside the dead band; concretely at target 25, hysteresis 1:
24.5 after ON stays ON, 23.9 turns OFF, 26.1 turns back ON. -/
theorem thermostatCooling_spec (target hysteresis reading : ℚ) (prev : Bool)
    (hh : 0 ≤ hysteresis) :
    (target + hysteresis ≤ reading →
      evaluateThermostat target hysteresis ThermoAction.cooling reading prev = true)
    ∧ (reading ≤ target - hysteresis → reading < target + hysteresis →
      evaluateThermostat target hysteresis ThermoAction.cooling reading prev = false)
    ∧ (target - hysteresis < reading → reading < target + hysteresis →
      evaluateThermostat target hysteresis ThermoAction.cooling reading prev = prev)
    ∧ evaluateThermostat 25 1 ThermoAction.cooling 24.5 true = true
    ∧ evaluateThermostat 25 1 ThermoAction.cooling 23.9 true = false
    ∧ evaluateThermostat 25 1 ThermoAction.cooling 26.1 false = true := by
  refine ⟨?_, ?_, ?_, ?_, ?_, ?_⟩
  · intro h1
    simp only [evaluateThermostat, if_pos h1]
  · intro h1 h2
    simp only [evaluateThermostat, if_neg (not_le.mpr h2), if_pos h1]
  · intro h1 h2
    simp only [evaluateThermostat, if_neg (not_le.mpr h2), if_neg (not_le.mpr h1)]
  · norm_num [evaluateThermostat]
  · norm_num [evaluateThermostat]
  · norm_num [evaluateThermostat]

theorem thermostatCooling_spec_witness :
    (0:ℚ) ≤ 1
    ∧ evaluateThermostat 25 1 ThermoAction.cooling 24.5 true = true
    ∧ evaluateThermostat 25 1 ThermoAction.cooling 26.1 false = true := by
  have h := thermostatCooling_spec 25 1 24.5 true (by norm_num)
  have h2 := thermostatCooling_spec 25 1 26.1 false (by norm_num)
  exact ⟨by norm_num, h.2.2.2.1, h2.1 (by norm_num)⟩

/-- C6: the heating thermostat inverts the cooling rules: it turns ON at
reading ≤ target - hysteresis, OFF at reading ≥ target + hysteresis (above
the ON threshold), and holds the previous output inside the dead band; with
target 25 and hysteresis 1 it turns ON at any reading ≤ 24 and OFF at any
reading ≥ 26. -/
theorem thermostatHeating_spec (target hysteresis reading : ℚ) (prev : Bool)
    (hh : 0 ≤ hysteresis) :
    (reading ≤ target - hysteresis →
      evaluateThermostat target hysteresis ThermoAction.heating reading prev = true)
    ∧ (target + hysteresis ≤ reading → target - hysteresis < reading →
      evaluateThermostat target hysteresis ThermoAction.heating reading prev = false)
    ∧ (target - hysteresis < reading → reading < target + hysteresis →
      evaluateThermostat target hysteresis ThermoAction.heating reading prev = prev)
    ∧ (reading ≤ 24 → evaluateThermostat 25 1 ThermoAction.heating reading prev = true)
    ∧ (26 ≤ reading → evaluateThermostat 25 1 ThermoAction.heating reading prev = false) := by
  refine ⟨?_, ?_, ?_, ?_, ?_⟩
  · intro h1
    simp only [evaluateThermostat, if_pos h1]
  · intro h1 h2
    simp only [evaluateThermostat, if_neg (not_le.mpr h2), if_pos h1]
  · intro h1 h2
    simp only [evaluateThermostat, if_neg (not_le.mpr h1), if_neg (not_le.mpr h2)]
  · intro h1
    have : reading ≤ (25:ℚ) - 1 := by linarith
    simp only [evaluateThermostat, if_pos this]
  · intro h1
    have hno : ¬ reading ≤ (25:ℚ) - 1 := by linarith
    have hyes : (25:ℚ) + 1 ≤ reading := by linarith
    simp only [evaluateThermostat, if_neg hno, if_pos hyes]

theorem thermostatHeating_spec_witness :
    (0:ℚ) ≤ 1
    ∧ evaluateThermostat 25 1 ThermoAction.heating 23.5 false = true
    ∧ evaluateThermostat 25 1 ThermoAction.heating 26.5 true = false := by
  have h := thermostatHeating_spec 25 1 (23.5) false (by norm_num)
  have h2 := thermostatHeating_spec 25 1 (26.5) true (by norm_num)
  exact ⟨by norm_num, h.2.2.2.1 (by norm_num), h2.2.2.2.2 (by norm_num)⟩

/-- C7: the period match is: for end < start (midnight wrap) exactly
t ≥ start or t < end; for start = end every t (full day); otherwise exactly
start ≤ t < end.  Hence a time strictly between end and start does not match
a wrapping period. -/
theorem scheduleMatch_spec (startT endT t : Nat) :
    (endT < startT → (periodMatches startT endT t = true ↔ (startT ≤ t ∨ t < endT)))
    ∧ (startT = endT → periodMatches startT endT t = true)
    ∧ (startT < endT → (periodMatches startT endT t = true ↔ (startT ≤ t ∧ t < endT)))
    ∧ (endT < startT → endT < t → t < startT → periodMatches startT endT t = false) := by
  refine ⟨?_, ?_, ?_, ?_⟩
  · intro h
    have hne : startT ≠ endT := by omega
    simp [periodMatches, hne, h]
  · intro h
    simp [periodMatches, h]
  · intro h
    have hne : startT ≠ endT := by omega
    have hlt : ¬ endT < startT := by omega
    simp [periodMatches, hne, hlt]
  · intro h h1 h2
    have hne : startT ≠ endT := by omega
    simp [periodMatches, hne, h]
    omega

theorem scheduleMatch_spec_witness :
    (360:Nat) < 1320
    ∧ periodMatches 1320 360 1380 = true
    ∧ periodMatches 1320 360 100 = true
    ∧ periodMatches 1320 360 700 = false
    ∧ periodMatches 480 480 700 = true := by
  refine ⟨by decide, ?_, ?_, ?_, ?_⟩
  · exact ((scheduleMatch_spec 1320 360 1380).1 (by decide)).mpr (Or.inl (by decide))
  · exact ((scheduleMatch_spec 1320 360 100).1 (by decide)).mpr (Or.inr (by decide))
  · exact (scheduleMatch_spec 1320 360 700).2.2.2 (by decide) (by decide) (by decide)
  · exact (scheduleMatch_spec 480 480 700).2.1 rfl
